import Mathlib

/-!
Shallow embedding of `src/2fa_monitor.py` (class `TwoFactorMonitor`).

Strings are modelled as `List Char`.  The byte-decoding step of
`extract_text_from_attributed_body` (UTF-8 with `errors='ignore'`, falling
back to latin-1, never failing) is modelled as the identity: a payload is
represented by the character sequence it decodes to.  Python's
`str.isprintable` is Unicode-category based; we model it exactly on the
Basic Latin and Latin-1 ranges (excluding the C0/C1 control ranges and DEL)
and treat higher code points as printable.  Whitespace (`\s`, `str.isspace`,
`str.strip`) is modelled by `Char.isWhitespace` (space, tab, CR, LF).
The external clipboard call `copy_to_clipboard` is modelled by an oracle
function `clip : List Char → Bool` giving the success of each attempted
write.
-/

namespace TwoFA

/-- Character class `\w` of Python regexes, restricted to ASCII: letters,
digits and underscore.  Used only for the word-boundary test `\b`. -/
def isWordChar (c : Char) : Bool :=
  c.isAlpha || c.isDigit || c == '_'

/-- Character class `\d` (ASCII decimal digit), as in the `6-digit` and
`4-digit` patterns of `TwoFactorMonitor.__init__`. -/
def isDigitChar (c : Char) : Bool :=
  c.isDigit

/-- Character class `[A-Z0-9]` of the `6-char` and `4-char` patterns. -/
def isUpperAlnum (c : Char) : Bool :=
  ('A' ≤ c && c ≤ 'Z') || c.isDigit

/-- Matching of the regex `\b cls{n} \b` at position `i` of `s`: `n`
characters of class `cls` starting at `i`, with a word boundary on each
side.  Because every `cls` character is a word character, `\b` before the
match means position 0 or a non-word character at `i - 1`, and `\b` after
the match means end of string or a non-word character at `i + n`. -/
def matchAt (cls : Char → Bool) (n : Nat) (s : List Char) (i : Nat) : Bool :=
  decide (i + n ≤ s.length) &&
  (decide (i = 0) || !isWordChar (s.getD (i - 1) ' ')) &&
  ((s.drop i).take n).all cls &&
  (decide (i + n = s.length) || !isWordChar (s.getD (i + n) ' '))

/-- Leftmost-position search: the first `j` with `start ≤ j < start + fuel`
such that `p j`, scanning positions left to right as `re.search` does. -/
def searchFrom (p : Nat → Bool) (start fuel : Nat) : Option Nat :=
  match fuel with
  | 0 => none
  | fuel' + 1 => if p start then some start else searchFrom p (start + 1) fuel'

/-- Index of the leftmost match of `\b cls{n} \b` in `s`, if any
(`pattern.search(text)`). -/
def regexSearchIdx (cls : Char → Bool) (n : Nat) (s : List Char) : Option Nat :=
  searchFrom (matchAt cls n s) 0 (s.length + 1)

/-- Substring of the leftmost match of `\b cls{n} \b` in `s`
(`match.group(0)`). -/
def regexSearch (cls : Char → Bool) (n : Nat) (s : List Char) : Option (List Char) :=
  match regexSearchIdx cls n s with
  | some i => some ((s.drop i).take n)
  | none => none

/-- Embedding of `extract_code`: the four patterns of `self.patterns` are
tried in insertion order (`6-digit`, `4-digit`, `6-char`, `4-char`) and the
first one whose search succeeds returns its matched substring. -/
def extract_code (s : List Char) : Option (List Char) :=
  match regexSearch isDigitChar 6 s with
  | some c => some c
  | none =>
    match regexSearch isDigitChar 4 s with
    | some c => some c
    | none =>
      match regexSearch isUpperAlnum 6 s with
      | some c => some c
      | none => regexSearch isUpperAlnum 4 s

/-- Capacity of the processed-codes history (`self.max_processed_codes`). -/
def max_processed_codes : Nat := 10

/-- Embedding of the duplicate test `code not in self.processed_codes`
(line 184): `true` means the code is new. -/
def considerCode (h : List (List Char)) (c : List Char) : Bool :=
  decide (c ∉ h)

/-- Embedding of lines 196-201: `self.processed_codes.append(code)` followed
by the trim `self.processed_codes = self.processed_codes[-10:]` when the
length exceeds `max_processed_codes`. -/
def recordEmitted (h : List (List Char)) (c : List Char) : List (List Char) :=
  let h2 := h ++ [c]
  if max_processed_codes < h2.length then h2.drop (h2.length - max_processed_codes)
  else h2

/-- Model of Python `str.isprintable` on a single character: not a C0 or
C1 control character and not DEL (exact on the Basic Latin and Latin-1
ranges, permissive above them). -/
def isPrintableChar (c : Char) : Bool :=
  decide (32 ≤ c.toNat) && decide (c.toNat ≠ 127) &&
  !(decide (128 ≤ c.toNat) && decide (c.toNat ≤ 159))

/-- Characters kept by the normalizer loop (line 143):
`(char.isprintable() or char.isspace()) and ord(char) >= 32`. -/
def keepChar (c : Char) : Bool :=
  (isPrintableChar c || c.isWhitespace) && decide (32 ≤ c.toNat)

/-- Embedding of `re.sub(r'\s+', ' ', text)`: every maximal run of
whitespace becomes a single space. -/
def collapseWs : List Char → List Char
  | [] => []
  | c :: cs =>
    if c.isWhitespace then
      match cs with
      | [] => [' ']
      | d :: _ => if d.isWhitespace then collapseWs cs else ' ' :: collapseWs cs
    else c :: collapseWs cs

/-- Embedding of `str.strip()`: drop whitespace from both ends. -/
def stripWs (s : List Char) : List Char :=
  ((s.dropWhile Char.isWhitespace).reverse.dropWhile Char.isWhitespace).reverse

/-- Cleaning done by `extract_text_from_attributed_body` on the decoded
text: keep readable characters, collapse whitespace, strip. -/
def cleanText (s : List Char) : List Char :=
  stripWs (collapseWs (s.filter keepChar))

/-- Embedding of `extract_text_from_attributed_body` (the spec's
`normalize`): `None` for an empty payload; otherwise the cleaned text when
its length exceeds 3, else `None`. -/
def extract_text_from_attributed_body (b : List Char) : Option (List Char) :=
  if b.isEmpty then none
  else
    let cleaned := cleanText b
    if 3 < cleaned.length then some cleaned else none

/-- One row returned by the store query of `get_recent_messages`:
`(message.ROWID, message.text, message.attributedBody, message.date,
chat.ROWID, chat.chat_identifier)`.  `text` may be SQL NULL (`none`) or a
string; `attributedBody` may be NULL or a (decoded) byte payload. -/
structure RawMessage where
  rowid : Nat
  text : Option (List Char)
  attributedBody : Option (List Char)
  date : Nat
  chat_id : Nat
  chat_identifier : List Char
deriving DecidableEq

/-- Mutable state of `TwoFactorMonitor`: `self.last_message_id` and
`self.processed_codes`. -/
structure MonitorState where
  last_message_id : Nat
  processed_codes : List (List Char)
deriving DecidableEq

/-- State set by `__init__`: `last_message_id = 0`, `processed_codes = []`. -/
def initState : MonitorState :=
  ⟨0, []⟩

/-- Truthiness of an optional string in Python (`not message_text` is the
negation of this). -/
def truthy : Option (List Char) → Bool
  | none => false
  | some t => !t.isEmpty

/-- Row-processing loop of `get_recent_messages` (lines 244-258): take
`text` if truthy, else extract from `attributedBody` when that is truthy;
keep the row as `(message_id, message_text)` only when the resulting text
is truthy and has positive length after `strip()`.  The SQL query itself is
the external store's concern; its rows are this function's input. -/
def get_recent_messages (rows : List RawMessage) : List (Nat × List Char) :=
  rows.filterMap fun m =>
    let mt :=
      if !truthy m.text && truthy m.attributedBody then
        extract_text_from_attributed_body (m.attributedBody.getD [])
      else m.text
    match mt with
    | some t => if !t.isEmpty && decide (0 < (stripWs t).length) then some (m.rowid, t) else none
    | none => none

/-- Embedding of `process_message` (lines 173-210): extract a code; if one
is found and is new, attempt the clipboard write; only on success append
the code to the history (with the capacity trim) and return it.  `clip`
models `copy_to_clipboard`; the returned option is the emitted-code
event (`return code` vs `return None`). -/
def process_message (clip : List Char → Bool) (st : MonitorState) (t : List Char) :
    MonitorState × Option (List Char) :=
  match extract_code t with
  | none => (st, none)
  | some code =>
    if considerCode st.processed_codes code then
      if clip code then
        (⟨st.last_message_id, recordEmitted st.processed_codes code⟩, some code)
      else (st, none)
    else (st, none)

/-- Result of one `check_for_new_messages` call: the new state, the
identifiers of the messages handed to `process_message` (the processed
messages), and the emitted-code events in order. -/
structure BatchResult where
  state : MonitorState
  processedIds : List Nat
  events : List (List Char)
deriving DecidableEq

/-- Body of the loop of `check_for_new_messages` (lines 279-287) for one
row: when `message_id > self.last_message_id`, update `last_message_id`
and run `process_message`; otherwise do nothing. -/
def batchStep (clip : List Char → Bool) (acc : BatchResult) (row : Nat × List Char) :
    BatchResult :=
  if acc.state.last_message_id < row.1 then
    let st1 : MonitorState := ⟨row.1, acc.state.processed_codes⟩
    let r := process_message clip st1 row.2
    ⟨r.1, acc.processedIds ++ [row.1], acc.events ++ r.2.toList⟩
  else acc

/-- Embedding of `check_for_new_messages` (the spec's `processBatch`):
resolve the rows' text via `get_recent_messages`, then run the cursor loop
over the resulting `(message_id, text)` pairs in order. -/
def check_for_new_messages (clip : List Char → Bool) (st : MonitorState)
    (rows : List RawMessage) : BatchResult :=
  (get_recent_messages rows).foldl (batchStep clip) ⟨st, [], []⟩

/-- Monitor state after a sequence of `check_for_new_messages` calls (the
polling loop of `run`, one batch per poll). -/
def runBatches (clip : List Char → Bool) (st : MonitorState)
    (bs : List (List RawMessage)) : MonitorState :=
  bs.foldl (fun s b => (check_for_new_messages clip s b).state) st

/-- Clipboard oracle that always succeeds. -/
def clipYes : List Char → Bool := fun _ => true

/-- Clipboard oracle that always fails (pbcopy raising). -/
def clipNo : List Char → Bool := fun _ => false

/-- Message with identifier `k` and a plain text that resolves but contains
no code. -/
def msgWithText (k : Nat) : RawMessage :=
  ⟨k, some ("hello".toList), none, 0, 0, []⟩

/-- Monitor state with watermark 4 and empty history (scenario 4 of the
spec). -/
def st_wm4 : MonitorState :=
  ⟨4, []⟩

/-- Message with identifier 5, no plain text, and a payload decoding to
"hi" (scenario 3 of the spec). -/
def msgHi : RawMessage :=
  ⟨5, none, some ("hi".toList), 0, 0, []⟩

/-- Message with identifier 1 whose text contains the fresh code 482913
(scenario 1 of the spec). -/
def msg482913 : RawMessage :=
  ⟨1, some ("Your code is 482913, expires in 10 min".toList), none, 0, 0, []⟩

/-! Helper lemmas about the dedup history. -/

theorem recordEmitted_eq_rtake (h : List (List Char)) (c : List Char) :
    recordEmitted h c = (h ++ [c]).rtake 10 := by
  simp only [recordEmitted, max_processed_codes, List.rtake]
  split
  · rfl
  · next hle => rw [Nat.sub_eq_zero_of_le (Nat.le_of_not_lt hle), List.drop_zero]

theorem rtake_append_rtake {α : Type} (n : Nat) (xs ys : List α) :
    (xs.rtake n ++ ys).rtake n = (xs ++ ys).rtake n := by
  simp only [List.rtake_eq_reverse_take_reverse, List.reverse_append, List.reverse_reverse]
  congr 1
  rw [List.take_append_eq_append_take, List.take_append_eq_append_take, List.take_take,
    Nat.min_eq_left (Nat.sub_le _ _)]

theorem foldl_recordEmitted_rtake (l : List (List Char)) :
    ∀ h c, List.foldl recordEmitted (recordEmitted h c) l = ((h ++ [c]) ++ l).rtake 10 := by
  induction l with
  | nil =>
    intro h c
    simp [recordEmitted_eq_rtake]
  | cons d l ih =>
    intro h c
    rw [List.foldl_cons, ih (recordEmitted h c) d, recordEmitted_eq_rtake h c,
      List.append_assoc ((h ++ [c]).rtake 10) [d] l, rtake_append_rtake]
    simp

theorem mem_take_append_cons {α : Type} (c : α) :
    ∀ (a : List α) (n : Nat) (b : List α), a.length < n → c ∈ (a ++ c :: b).take n := by
  intro a
  induction a with
  | nil =>
    intro n b hn
    cases n with
    | zero => omega
    | succ m => simp [List.take_succ_cons]
  | cons x a ih =>
    intro n b hn
    cases n with
    | zero => omega
    | succ m =>
      rw [List.cons_append, List.take_succ_cons]
      exact List.mem_cons_of_mem _ (ih m b (by simpa using Nat.lt_of_succ_lt_succ hn))

theorem mem_rtake_middle (h : List (List Char)) (c : List Char) (l : List (List Char))
    (hl : l.length ≤ 9) : c ∈ ((h ++ [c]) ++ l).rtake 10 := by
  rw [List.rtake_eq_reverse_take_reverse, List.mem_reverse]
  have hrev : ((h ++ [c]) ++ l).reverse = l.reverse ++ c :: h.reverse := by
    simp
  rw [hrev]
  exact mem_take_append_cons c l.reverse 10 h.reverse (by simpa using Nat.lt_succ_of_le hl)

theorem rtake_all_of_length_eq {α : Type} (xs l : List α) (hl : l.length = 10) :
    (xs ++ l).rtake 10 = l := by
  rw [List.rtake_eq_reverse_take_reverse, List.reverse_append, List.take_append_eq_append_take]
  have h1 : l.reverse.take 10 = l.reverse := by
    rw [← hl, ← List.length_reverse, List.take_length]
  have h2 : 10 - l.reverse.length = 0 := by
    simp [hl]
  rw [h1, h2]
  simp

theorem recordEmitted_length_le (h : List (List Char)) (c : List Char) :
    (recordEmitted h c).length ≤ 10 := by
  rw [recordEmitted_eq_rtake]
  simp only [List.rtake, List.length_drop, List.length_append]
  omega

theorem foldl_recordEmitted_length (l : List (List Char)) :
    ∀ h, h.length ≤ 10 → (List.foldl recordEmitted h l).length ≤ 10 := by
  induction l with
  | nil => intro h hh; simpa using hh
  | cons c l ih =>
    intro h _
    rw [List.foldl_cons]
    exact ih _ (recordEmitted_length_le h c)

theorem recordEmitted_nodup (h : List (List Char)) (c : List Char) (hn : h.Nodup)
    (hc : c ∉ h) : (recordEmitted h c).Nodup := by
  have happ : (h ++ [c]).Nodup := by
    simp [List.nodup_append, hn, hc]
  rw [recordEmitted_eq_rtake]
  have hsub : List.Sublist ((h ++ [c]).rtake 10) (h ++ [c]) := by
    simp only [List.rtake]
    exact List.drop_sublist _ _
  exact happ.sublist hsub

/-- C4: a code `c` recorded via `recordEmitted` is reported non-new by
`considerCode` (isNew = false) as long as at most 9 further codes have been
recorded after it; after exactly 10 further records the history consists of
precisely those 10 codes in order (FIFO eviction from the front), so when
none of them equals `c`, `considerCode` reports `c` as new again. -/
theorem c4_dedup_window (h : List (List Char)) (c : List Char) (l : List (List Char)) :
    (l.length ≤ 9 →
      considerCode (List.foldl recordEmitted (recordEmitted h c) l) c = false) ∧
    (l.length = 10 →
      List.foldl recordEmitted (recordEmitted h c) l = l ∧
      ((∀ d ∈ l, d ≠ c) →
        considerCode (List.foldl recordEmitted (recordEmitted h c) l) c = true)) := by
  rw [foldl_recordEmitted_rtake]
  constructor
  · intro h9
    have hc : c ∈ ((h ++ [c]) ++ l).rtake 10 := mem_rtake_middle h c l h9
    simp only [considerCode, decide_eq_false_iff_not, not_not]
    exact hc
  · intro h10
    have he : ((h ++ [c]) ++ l).rtake 10 = l := rtake_all_of_length_eq _ l h10
    refine ⟨he, ?_⟩
    intro hd
    rw [he]
    simp only [considerCode, decide_eq_true_eq]
    intro hmem
    exact (hd c hmem) rfl

/-- C4 witness: with an empty history, recording "111111" then nine other
codes keeps it non-new; recording a tenth other code evicts it. -/
theorem c4_witness :
    considerCode (List.foldl recordEmitted (recordEmitted [] ("111111".toList))
      ["000001".toList, "000002".toList, "000003".toList, "000004".toList, "000005".toList,
       "000006".toList, "000007".toList, "000008".toList, "000009".toList])
      ("111111".toList) = false ∧
    considerCode (List.foldl recordEmitted (recordEmitted [] ("111111".toList))
      ["000001".toList, "000002".toList, "000003".toList, "000004".toList, "000005".toList,
       "000006".toList, "000007".toList, "000008".toList, "000009".toList, "000010".toList])
      ("111111".toList) = true := by
  constructor
  · exact (c4_dedup_window [] ("111111".toList) _).1 (by decide)
  · exact ((c4_dedup_window [] ("111111".toList) _).2 (by decide)).2 (by decide)

/-- C6: starting from the initial empty history, any sequence of
`recordEmitted` calls leaves at most 10 codes in the history. -/
theorem c6_history_bounded (l : List (List Char)) :
    (List.foldl recordEmitted initState.processed_codes l).length ≤ 10 :=
  foldl_recordEmitted_length l _ (by simp [initState])

/-! Helper lemmas about the cursor pipeline. -/

theorem process_message_wm (clip : List Char → Bool) (st : MonitorState) (t : List Char) :
    (process_message clip st t).1.last_message_id = st.last_message_id := by
  rcases hE : extract_code t with _ | code
  · simp [process_message, hE]
  · simp only [process_message, hE]
    split
    · split <;> rfl
    · rfl

theorem process_message_nodup (clip : List Char → Bool) (st : MonitorState) (t : List Char)
    (hn : st.processed_codes.Nodup) : ((process_message clip st t).1.processed_codes).Nodup := by
  rcases hE : extract_code t with _ | code
  · simpa [process_message, hE] using hn
  · simp only [process_message, hE]
    split
    · next hnew =>
      split
      · exact recordEmitted_nodup _ _ hn (by simpa [considerCode] using hnew)
      · exact hn
    · exact hn

theorem batchStep_wm (clip : List Char → Bool) (acc : BatchResult) (row : Nat × List Char) :
    (batchStep clip acc row).state.last_message_id = max acc.state.last_message_id row.1 := by
  unfold batchStep
  split
  · next hlt =>
    dsimp only
    rw [process_message_wm]
    exact (Nat.max_eq_right (Nat.le_of_lt hlt)).symm
  · next hge =>
    exact (Nat.max_eq_left (Nat.le_of_not_lt hge)).symm

theorem foldl_batchStep_wm (clip : List Char → Bool) (rows : List (Nat × List Char)) :
    ∀ acc : BatchResult, (rows.foldl (batchStep clip) acc).state.last_message_id =
      rows.foldl (fun w r => max w r.1) acc.state.last_message_id := by
  induction rows with
  | nil => intro acc; rfl
  | cons r rows ih =>
    intro acc
    rw [List.foldl_cons, List.foldl_cons, ih, batchStep_wm]

theorem check_wm_eq (clip : List Char → Bool) (st : MonitorState) (rows : List RawMessage) :
    (check_for_new_messages clip st rows).state.last_message_id =
      (get_recent_messages rows).foldl (fun w r => max w r.1) st.last_message_id := by
  unfold check_for_new_messages
  rw [foldl_batchStep_wm]

theorem le_foldl_max (l : List (Nat × List Char)) :
    ∀ w : Nat, w ≤ l.foldl (fun a r => max a r.1) w := by
  induction l with
  | nil => intro w; exact Nat.le_refl w
  | cons r l ih => intro w; exact Nat.le_trans (Nat.le_max_left w r.1) (ih _)

theorem check_wm_mono (clip : List Char → Bool) (st : MonitorState) (rows : List RawMessage) :
    st.last_message_id ≤ (check_for_new_messages clip st rows).state.last_message_id := by
  rw [check_wm_eq]
  exact le_foldl_max _ _

theorem runBatches_append (clip : List Char → Bool) (st : MonitorState)
    (pre suf : List (List RawMessage)) :
    runBatches clip st (pre ++ suf) = runBatches clip (runBatches clip st pre) suf := by
  unfold runBatches
  exact List.foldl_append _ _ _ _

theorem runBatches_wm_mono (clip : List Char → Bool) (bs : List (List RawMessage)) :
    ∀ st : MonitorState, st.last_message_id ≤ (runBatches clip st bs).last_message_id := by
  induction bs with
  | nil => intro st; exact Nat.le_refl _
  | cons b bs ih =>
    intro st
    simp only [runBatches, List.foldl_cons]
    exact Nat.le_trans (check_wm_mono clip st b) (ih _)

theorem foldl_batchStep_processed (clip : List Char → Bool) (rows : List (Nat × List Char)) :
    ∀ (acc : BatchResult) (w0 : Nat), w0 ≤ acc.state.last_message_id →
      (∀ i ∈ acc.processedIds, w0 < i) →
      ∀ i ∈ (rows.foldl (batchStep clip) acc).processedIds, w0 < i := by
  induction rows with
  | nil => intro acc w0 _ hacc i hi; exact hacc i hi
  | cons r rows ih =>
    intro acc w0 hw hacc
    rw [List.foldl_cons]
    refine ih _ w0 ?_ ?_
    · rw [batchStep_wm]
      exact Nat.le_trans hw (Nat.le_max_left _ _)
    · unfold batchStep
      split
      · next hlt =>
        dsimp only
        intro i hi
        rcases List.mem_append.mp hi with h1 | h2
        · exact hacc i h1
        · have hir : i = r.1 := by simpa using h2
          omega
      · exact hacc

theorem check_processed_gt (clip : List Char → Bool) (st : MonitorState)
    (rows : List RawMessage) :
    ∀ i ∈ (check_for_new_messages clip st rows).processedIds, st.last_message_id < i := by
  unfold check_for_new_messages
  exact foldl_batchStep_processed clip _ ⟨st, [], []⟩ st.last_message_id (Nat.le_refl _)
    (by simp)

theorem batchStep_nodup (clip : List Char → Bool) (acc : BatchResult) (row : Nat × List Char)
    (hn : acc.state.processed_codes.Nodup) :
    ((batchStep clip acc row).state.processed_codes).Nodup := by
  unfold batchStep
  split
  · exact process_message_nodup clip _ _ hn
  · exact hn

theorem foldl_batchStep_nodup (clip : List Char → Bool) (rows : List (Nat × List Char)) :
    ∀ acc : BatchResult, acc.state.processed_codes.Nodup →
      ((rows.foldl (batchStep clip) acc).state.processed_codes).Nodup := by
  induction rows with
  | nil => intro acc hn; exact hn
  | cons r rows ih =>
    intro acc hn
    rw [List.foldl_cons]
    exact ih _ (batchStep_nodup clip acc r hn)

theorem check_nodup (clip : List Char → Bool) (st : MonitorState) (rows : List RawMessage)
    (hn : st.processed_codes.Nodup) :
    ((check_for_new_messages clip st rows).state.processed_codes).Nodup := by
  unfold check_for_new_messages
  exact foldl_batchStep_nodup clip _ ⟨st, [], []⟩ hn

theorem runBatches_nodup (clip : List Char → Bool) (bs : List (List RawMessage)) :
    ∀ st : MonitorState, st.processed_codes.Nodup →
      ((runBatches clip st bs).processed_codes).Nodup := by
  induction bs with
  | nil => intro st hn; exact hn
  | cons b bs ih =>
    intro st hn
    simp only [runBatches, List.foldl_cons]
    exact ih _ (check_nodup clip st b hn)

/-! Helper lemmas about the leftmost-match search. -/

theorem searchFrom_some (p : Nat → Bool) :
    ∀ (fuel start j : Nat), searchFrom p start fuel = some j →
      p j = true ∧ start ≤ j ∧ ∀ k, start ≤ k → k < j → p k = false := by
  intro fuel
  induction fuel with
  | zero => intro start j h; simp [searchFrom] at h
  | succ fuel ih =>
    intro start j h
    rw [show searchFrom p start (fuel + 1) =
        if p start then some start else searchFrom p (start + 1) fuel from rfl] at h
    by_cases hp : p start = true
    · rw [if_pos hp] at h
      have hj : start = j := Option.some.inj h
      subst hj
      exact ⟨hp, Nat.le_refl _, fun k h1 h2 => absurd (Nat.lt_of_le_of_lt h1 h2)
        (Nat.lt_irrefl _)⟩
    · rw [if_neg hp] at h
      obtain ⟨hpj, hle, hmin⟩ := ih (start + 1) j h
      refine ⟨hpj, by omega, ?_⟩
      intro k h1 h2
      rcases Nat.eq_or_lt_of_le h1 with heq | hlt
      · rw [← heq]
        exact Bool.eq_false_iff.mpr (fun hk => hp hk)
      · exact hmin k hlt h2

theorem searchFrom_isSome (p : Nat → Bool) :
    ∀ (fuel start j : Nat), start ≤ j → j < start + fuel → p j = true →
      (searchFrom p start fuel).isSome := by
  intro fuel
  induction fuel with
  | zero => intro start j h1 h2 _; exact absurd h2 (by omega)
  | succ fuel ih =>
    intro start j h1 h2 h3
    rw [show searchFrom p start (fuel + 1) =
        if p start then some start else searchFrom p (start + 1) fuel from rfl]
    by_cases hp : p start = true
    · rw [if_pos hp]; rfl
    · rw [if_neg hp]
      rcases Nat.eq_or_lt_of_le h1 with heq | hlt
      · rw [← heq] at h3; exact absurd h3 hp
      · exact ih (start + 1) j hlt (by omega) h3

theorem matchAt_le_length {cls : Char → Bool} {n : Nat} {s : List Char} {i : Nat}
    (h : matchAt cls n s i = true) : i + n ≤ s.length := by
  simp only [matchAt, Bool.and_eq_true, decide_eq_true_eq] at h
  exact h.1.1.1

theorem regexSearch_leftmost {cls : Char → Bool} {n : Nat} {s : List Char} {i : Nat}
    (h : matchAt cls n s i = true) :
    ∃ i0, matchAt cls n s i0 = true ∧ (∀ k < i0, matchAt cls n s k = false) ∧
      regexSearch cls n s = some ((s.drop i0).take n) := by
  have hsome : (regexSearchIdx cls n s).isSome := by
    have hle : i + n ≤ s.length := matchAt_le_length h
    exact searchFrom_isSome _ (s.length + 1) 0 i (Nat.zero_le i) (by omega) h
  rcases ho : regexSearchIdx cls n s with _ | i0
  · rw [ho] at hsome; simp at hsome
  · obtain ⟨hp, _, hmin⟩ := searchFrom_some (matchAt cls n s) (s.length + 1) 0 i0 ho
    refine ⟨i0, hp, fun k hk => hmin k (Nat.zero_le k) hk, ?_⟩
    simp [regexSearch, ho]

theorem extract_code_of_six {s r : List Char} (h : regexSearch isDigitChar 6 s = some r) :
    extract_code s = some r := by
  unfold extract_code
  rw [h]

/-! Claim theorems. -/

/-- C1 counterexample: for the batch [5,3,8] with watermark 4 iterated in
the order [8,5,3], message 5 is NOT processed (only 8 is), refuting the
claim that messages 5 and 8 are both processed regardless of iteration
order.  The watermark still ends at 8. -/
theorem c1_counterexample_descending :
    5 ∉ (check_for_new_messages clipYes st_wm4
      [msgWithText 8, msgWithText 5, msgWithText 3]).processedIds ∧
    (check_for_new_messages clipYes st_wm4
      [msgWithText 8, msgWithText 5, msgWithText 3]).processedIds = [8] ∧
    (check_for_new_messages clipYes st_wm4
      [msgWithText 8, msgWithText 5, msgWithText 3]).state.last_message_id = 8 := by
  decide

/-- C1 amended: for any iteration order of the batch [5,3,8] with watermark
4, the resulting watermark is 8 and message 3 is skipped and message 8 is
processed; but message 5 is processed only in orders where it precedes 8 —
in the listed order [5,3,8] both 5 and 8 are processed. -/
theorem c1_batch_order (rows : List RawMessage)
    (hperm : rows.Perm [msgWithText 5, msgWithText 3, msgWithText 8]) :
    (check_for_new_messages clipYes st_wm4 rows).state.last_message_id = 8 ∧
    3 ∉ (check_for_new_messages clipYes st_wm4 rows).processedIds ∧
    8 ∈ (check_for_new_messages clipYes st_wm4 rows).processedIds ∧
    (check_for_new_messages clipYes st_wm4
      [msgWithText 5, msgWithText 3, msgWithText 8]).processedIds = [5, 8] := by
  have hmem := List.mem_permutations'.mpr hperm
  have hperms : List.permutations' [msgWithText 5, msgWithText 3, msgWithText 8] =
      [[msgWithText 5, msgWithText 3, msgWithText 8],
       [msgWithText 3, msgWithText 5, msgWithText 8],
       [msgWithText 3, msgWithText 8, msgWithText 5],
       [msgWithText 5, msgWithText 8, msgWithText 3],
       [msgWithText 8, msgWithText 5, msgWithText 3],
       [msgWithText 8, msgWithText 3, msgWithText 5]] := by decide
  rw [hperms] at hmem
  simp only [List.mem_cons, List.not_mem_nil, or_false] at hmem
  rcases hmem with h | h | h | h | h | h <;> subst h <;>
    exact ⟨by decide, by decide, by decide, by decide⟩

/-- C1 witness: the amended theorem applied to the identity ordering. -/
theorem c1_witness :
    (check_for_new_messages clipYes st_wm4
      [msgWithText 5, msgWithText 3, msgWithText 8]).state.last_message_id = 8 ∧
    3 ∉ (check_for_new_messages clipYes st_wm4
      [msgWithText 5, msgWithText 3, msgWithText 8]).processedIds ∧
    8 ∈ (check_for_new_messages clipYes st_wm4
      [msgWithText 5, msgWithText 3, msgWithText 8]).processedIds ∧
    (check_for_new_messages clipYes st_wm4
      [msgWithText 5, msgWithText 3, msgWithText 8]).processedIds = [5, 8] :=
  c1_batch_order [msgWithText 5, msgWithText 3, msgWithText 8] (List.Perm.refl _)

/-- C2 counterexample: a message with identifier 5 (strictly above the
watermark 0) whose only content decodes to "hi" resolves no text; it is
dropped before the cursor loop and the watermark stays 0, not 5, refuting
the claim that the watermark advances even when no text resolves. -/
theorem c2_counterexample_textless :
    get_recent_messages [msgHi] = [] ∧
    (check_for_new_messages clipYes initState [msgHi]).state.last_message_id = 0 ∧
    (check_for_new_messages clipYes initState [msgHi]).state.last_message_id ≠ 5 := by
  decide

/-- C2 amended: the watermark after a batch is the max of the old watermark
and the identifiers of exactly those messages whose text resolves
(non-empty after strip); such messages advance the watermark even when
skipped as duplicates or when the clipboard fails, while messages with no
resolved text never advance it. -/
theorem c2_watermark_resolved_only (clip : List Char → Bool) (st : MonitorState)
    (rows : List RawMessage) :
    (check_for_new_messages clip st rows).state.last_message_id =
      (get_recent_messages rows).foldl (fun w r => max w r.1) st.last_message_id :=
  check_wm_eq clip st rows

/-- C3 counterexample: with a failing clipboard, a message containing the
fresh code 482913 produces NO emitted event and the code is NOT recorded in
the dedup history, refuting the claim that clipboard failure does not
change recording and emission. -/
theorem c3_counterexample_clipboard_failure :
    extract_code ("Your code is 482913, expires in 10 min".toList) =
      some ("482913".toList) ∧
    considerCode initState.processed_codes ("482913".toList) = true ∧
    (check_for_new_messages clipNo initState [msg482913]).events = [] ∧
    (check_for_new_messages clipNo initState [msg482913]).state.processed_codes = [] := by
  decide

/-- C3 amended: for a processed message whose extracted code is new, the
code is recorded and an emitted-code event produced exactly when the
clipboard write succeeds; when the clipboard write fails, the code is not
recorded and no event is produced (the failure is contained in that
message's step). -/
theorem c3_clipboard_gates_recording (clip : List Char → Bool) (st : MonitorState)
    (t code : List Char) (h1 : extract_code t = some code)
    (h2 : considerCode st.processed_codes code = true) :
    (clip code = true →
      process_message clip st t =
        (⟨st.last_message_id, recordEmitted st.processed_codes code⟩, some code)) ∧
    (clip code = false → process_message clip st t = (st, none)) := by
  constructor <;> intro hc <;> simp [process_message, h1, h2, hc]

/-- C3 witness: the amended theorem at a concrete message with a succeeding
clipboard. -/
theorem c3_witness :
    (clipYes ("482913".toList) = true →
      process_message clipYes initState ("Your code is 482913, expires in 10 min".toList) =
        (⟨initState.last_message_id, recordEmitted initState.processed_codes
          ("482913".toList)⟩, some ("482913".toList))) ∧
    (clipYes ("482913".toList) = false →
      process_message clipYes initState ("Your code is 482913, expires in 10 min".toList) =
        (initState, none)) :=
  c3_clipboard_gates_recording clipYes initState _ _ (by decide) (by decide)

/-- C5: when a text has a word-bounded 6-digit match somewhere and also a
word-bounded 4-alphanumeric match somewhere, `extract_code` returns the
leftmost 6-digit match (the highest-priority rule with any match wins). -/
theorem c5_pattern_priority (s : List Char) (i j : Nat)
    (h6 : matchAt isDigitChar 6 s i = true) (_h4 : matchAt isUpperAlnum 4 s j = true) :
    ∃ i0, matchAt isDigitChar 6 s i0 = true ∧
      (∀ k < i0, matchAt isDigitChar 6 s k = false) ∧
      extract_code s = some ((s.drop i0).take 6) := by
  obtain ⟨i0, hm, hmin, hs⟩ := regexSearch_leftmost h6
  exact ⟨i0, hm, hmin, extract_code_of_six hs⟩

/-- C5 witness: a text with both a 6-digit and a 4-alphanumeric match. -/
theorem c5_witness :
    ∃ i0, matchAt isDigitChar 6 ("code 482913 or AB12".toList) i0 = true ∧
      (∀ k < i0, matchAt isDigitChar 6 ("code 482913 or AB12".toList) k = false) ∧
      extract_code ("code 482913 or AB12".toList) =
        some ((("code 482913 or AB12".toList).drop i0).take 6) :=
  c5_pattern_priority ("code 482913 or AB12".toList) 5 15 (by decide) (by decide)

/-- C7: across any sequence of batches, the watermark never decreases
(earlier run prefix vs later), and any message processed in a subsequent
batch has an identifier strictly above every previously observed
watermark. -/
theorem c7_watermark_monotone (clip : List Char → Bool) (st0 : MonitorState)
    (pre suf : List (List RawMessage)) (b : List RawMessage) (mid : Nat)
    (hmem : mid ∈ (check_for_new_messages clip
      (runBatches clip st0 (pre ++ suf)) b).processedIds) :
    (runBatches clip st0 pre).last_message_id ≤
      (runBatches clip st0 (pre ++ suf)).last_message_id ∧
    (runBatches clip st0 pre).last_message_id < mid := by
  have hmono : (runBatches clip st0 pre).last_message_id ≤
      (runBatches clip st0 (pre ++ suf)).last_message_id := by
    rw [runBatches_append]
    exact runBatches_wm_mono clip suf _
  exact ⟨hmono, Nat.lt_of_le_of_lt hmono (check_processed_gt clip _ b mid hmem)⟩

/-- C7 witness: three single-message batches with identifiers 1, 2, 3. -/
theorem c7_witness :
    (runBatches clipYes initState [[msgWithText 1]]).last_message_id ≤
      (runBatches clipYes initState ([[msgWithText 1]] ++ [[msgWithText 2]])).last_message_id ∧
    (runBatches clipYes initState [[msgWithText 1]]).last_message_id < 3 :=
  c7_watermark_monotone clipYes initState [[msgWithText 1]] [[msgWithText 2]]
    [msgWithText 3] 3 (by decide)

/-- C8: the 8-digit run "12345678" has no word-bounded 6-digit match and no
word-bounded 4-digit match, and `extract_code` returns none on it. -/
theorem c8_word_boundary :
    regexSearch isDigitChar 6 ("12345678".toList) = none ∧
    regexSearch isDigitChar 4 ("12345678".toList) = none ∧
    extract_code ("12345678".toList) = none := by
  decide

/-- C9: the normalizer returns the cleaned string only when its length
exceeds 3 and returns none otherwise; in particular a payload decoding to
"hi" yields none, and the pipeline emits no event for a message whose only
content is that payload. -/
theorem c9_normalize_threshold (s r : List Char)
    (h : extract_text_from_attributed_body s = some r) :
    r = cleanText s ∧ 3 < r.length ∧
    extract_text_from_attributed_body ("hi".toList) = none ∧
    (check_for_new_messages clipYes initState [msgHi]).events = [] := by
  have hr : r = cleanText s ∧ 3 < r.length := by
    simp only [extract_text_from_attributed_body] at h
    split_ifs at h with h1 h2
    · have heq := Option.some.inj h
      exact ⟨heq.symm, heq ▸ h2⟩
  exact ⟨hr.1, hr.2, by decide, by decide⟩

/-- C9 witness: the theorem at the payload "hello!", which cleans to itself
and passes the length threshold. -/
theorem c9_witness :
    "hello!".toList = cleanText ("hello!".toList) ∧ 3 < ("hello!".toList).length ∧
    extract_text_from_attributed_body ("hi".toList) = none ∧
    (check_for_new_messages clipYes initState [msgHi]).events = [] :=
  c9_normalize_threshold ("hello!".toList) ("hello!".toList) (by decide)

/-- C10: the dedup history of any state reachable from the initial state by
whole batches followed by a prefix of a further batch contains no duplicate
code values (the membership check guards every append). -/
theorem c10_history_nodup (clip : List Char → Bool) (bs : List (List RawMessage))
    (rows : List RawMessage) :
    ((check_for_new_messages clip (runBatches clip initState bs)
      rows).state.processed_codes).Nodup :=
  check_nodup clip _ rows (runBatches_nodup clip bs initState (by simp [initState]))

end TwoFA
